import Mathlib

/-!
Verification development for the AnnaTranslator frontend translation
pipeline (`src/App.vue`, `src/history.ts`) and the spec's History Log cap.

The model is a shallow embedding: one invocation of the async function
`translate` is a pure function from the app state, the input text, the
`force` option and an environment (the results the external world returns:
the cache lookup, the stream chunks and how the stream ends, the success
of the persistence calls) to the new app state together with the ordered
trace of observable effects the invocation performs (messages shown,
abort of the previous controller, cache lookup, network request, cache
store, history record, console error log).
-/

namespace Anna

/-- JavaScript `String.prototype.trim` on a character list: drop leading
and trailing whitespace. -/
def trimChars (l : List Char) : List Char :=
  (l.dropWhile Char.isWhitespace).rdropWhile Char.isWhitespace

/-- JavaScript `text.trim()` as used throughout `App.vue`. -/
def jsTrim (s : String) : String :=
  ⟨trimChars s.data⟩

/-- The subset of the settings store read by `translate`
(`settings.value.*` in `App.vue`). -/
structure Settings where
  apiKey : String
  baseUrl : String
  model : String
  prompt : String
  deriving Repr, DecidableEq

/-- The mutable frontend state touched by `translate` and its handlers:
`isPaused`, the `controller` ref (modelled as the numeric id of the live
`AbortController`, `none` for `null`), `streaming`, `translatedText`,
`originalText`, plus the environment flag `isTauri` and a fresh-id counter
for newly constructed `AbortController`s. -/
structure AppState where
  isPaused : Bool
  isTauri : Bool
  settings : Settings
  controller : Option Nat
  streaming : Bool
  translatedText : String
  originalText : String
  nextId : Nat
  deriving Repr, DecidableEq

/-- Observable effects of one `translate` invocation, in program order. -/
inductive Ev where
  /-- Models `message.warning(t(key))`. -/
  | msgWarning (key : String)
  /-- Models `message.error(...)`. -/
  | msgError (key : String)
  /-- Models `controller.value?.abort()` on the controller with this id. -/
  | abortSession (id : Nat)
  /-- Models the `invoke` of `get_cached_translation` on a key. -/
  | cacheLookup (key : String)
  /-- Models `console.error(...)`. -/
  | logError (what : String)
  /-- Models `client.chat.completions.create`: the streaming
  request, tagged with the id of the `AbortController` whose signal it
  uses and the model / system prompt / user content sent -/
  | netRequest (id : Nat) (model prompt userContent : String)
  /-- Models the `invoke` of `store_translation` with a key and a value. -/
  | cacheStore (key value : String)
  /-- Models the `invoke` of `record_translation_history`. -/
  | historyRecord (original translation : String)
  deriving Repr, DecidableEq

/-- How the awaited stream ends inside the `try` block of `translate`. -/
inductive StreamOutcome where
  /-- the `for await` loop finishes normally -/
  | ok
  /-- an exception with `name === "AbortError"` is thrown -/
  | abortError
  /-- any other exception, carrying its `message` -/
  | otherError (msg : String)
  deriving Repr, DecidableEq

/-- The responses of the external world during one `translate` invocation:
the result of `invoke("get_cached_translation")` (`Except.error` when the
promise rejects, otherwise `string | null`), the `delta.content` of each
stream part received before the stream ends (`none` when the optional
chain yields no content), how the stream ends, and whether the
`store_translation` / `record_translation_history` invokes succeed. -/
structure Env where
  cacheResult : Except Unit (Option String)
  deltas : List (Option String)
  outcome : StreamOutcome
  storeOk : Bool
  historyOk : Bool
  deriving Repr

/-- Embeds `recordTranslationHistory` (`src/history.ts`): outside Tauri it
returns at once; otherwise it invokes `record_translation_history`,
logging (not propagating) a failure. -/
def recordTranslationHistory (isTauri ok : Bool) (original translation : String) :
    List Ev :=
  if !isTauri then []
  else if ok then [Ev.historyRecord original translation]
  else [Ev.historyRecord original translation, Ev.logError "record_translation_history"]

/-- Embeds `persistTranslationHistory` (`App.vue` lines 385-388): skips entirely
when `translation.trim()` is falsy, else calls `recordTranslationHistory`. -/
def persistTranslationHistory (isTauri ok : Bool) (original translation : String) :
    List Ev :=
  if jsTrim translation = "" then []
  else recordTranslationHistory isTauri ok original translation

/-- The accumulator of the `for await` loop: each part's
`choices?.[0]?.delta?.content` is appended when truthy
(`if (delta) translatedText.value += delta`). -/
def accumulate (deltas : List (Option String)) : String :=
  deltas.foldl
    (fun acc d =>
      match d with
      | some s => if s = "" then acc else acc ++ s
      | none => acc)
    ""

/-- The code after the `try`/`finally` block (`App.vue` lines 208-221):
a cache store when `shouldPersist && translatedText.value && isTauri`
(with a logged, swallowed failure), then a history record when
`translatedText.value` is truthy. Pure event emission: it does not touch
the frontend state. -/
def afterStream (s : AppState) (env : Env) (content : String) (shouldPersist : Bool) :
    List Ev :=
  (if shouldPersist && !(s.translatedText = "") && s.isTauri then
      Ev.cacheStore content s.translatedText ::
        (if env.storeOk then [] else [Ev.logError "store_translation"])
    else []) ++
  (if s.translatedText = "" then []
   else persistTranslationHistory s.isTauri env.historyOk content s.translatedText)

/-- Embeds `App.vue` lines 165-221: the part of `translate` after the cache
check. Missing credential aborts before the client is constructed; else a
fresh `AbortController` is taken, the streaming request issued, deltas
accumulated; `AbortError` returns from the `catch` (the `finally` still
clears `streaming` and `controller`); any other error is shown; then
`afterStream` persists. -/
def translateRequest (s : AppState) (env : Env) (content : String) :
    AppState × List Ev :=
  if s.settings.apiKey = "" then (s, [Ev.msgError "missingApiKey"])
  else
    let id := s.nextId
    let s1 : AppState :=
      { s with nextId := s.nextId + 1, controller := some id,
               translatedText := "", streaming := true }
    let reqEv := Ev.netRequest id s.settings.model s.settings.prompt content
    let s2 : AppState := { s1 with translatedText := accumulate env.deltas }
    let s3 : AppState := { s2 with streaming := false, controller := none }
    match env.outcome with
    | StreamOutcome.ok =>
        (s3, reqEv :: afterStream s3 env content true)
    | StreamOutcome.abortError =>
        (s3, [reqEv])
    | StreamOutcome.otherError msg =>
        (s3, reqEv :: Ev.msgError msg :: afterStream s3 env content false)

/-- The events emitted by `controller.value?.abort()` at the start of
`translate`: one abort when a controller is live, none otherwise. -/
def abortEvs (c : Option Nat) : List Ev :=
  match c with
  | some id => [Ev.abortSession id]
  | none => []

/-- Embeds `translate` (`App.vue` lines 136-222). Returns at once when paused;
warns on blank trimmed input; aborts and clears any live controller;
consults the cache only when `isTauri && !force` (a truthy hit is
displayed and recorded to history, then the function returns; a rejected
invoke is logged and falls through); otherwise proceeds to the network
request path. -/
def translate (s0 : AppState) (env : Env) (text : String) (force : Bool) :
    AppState × List Ev :=
  if s0.isPaused then (s0, [])
  else
    let content := jsTrim text
    if content = "" then (s0, [Ev.msgWarning "noContent"])
    else
      let aborts := abortEvs s0.controller
      let s1 : AppState := { s0 with controller := none, streaming := false }
      if s1.isTauri && !force then
        match env.cacheResult with
        | Except.ok (some cached) =>
            if cached = "" then
              let r := translateRequest s1 env content
              (r.1, aborts ++ Ev.cacheLookup content :: r.2)
            else
              let s2 : AppState := { s1 with translatedText := cached }
              (s2, aborts ++ Ev.cacheLookup content ::
                    persistTranslationHistory s2.isTauri env.historyOk content cached)
        | Except.ok none =>
            let r := translateRequest s1 env content
            (r.1, aborts ++ Ev.cacheLookup content :: r.2)
        | Except.error _ =>
            let r := translateRequest s1 env content
            (r.1, aborts ++ Ev.cacheLookup content :: Ev.logError "get_cached_translation" :: r.2)
      else
        let r := translateRequest s1 env content
        (r.1, aborts ++ r.2)

/-- Embeds `stopStream` (`App.vue` lines 242-244): aborts the live controller if
any; it does not itself clear the handle (the aborted invocation's
`finally` does). -/
def stopStream (s : AppState) : List Ev :=
  match s.controller with
  | some id => [Ev.abortSession id]
  | none => []

/-- Embeds `handlePause` (`App.vue` lines 238-240). -/
def handlePause (s : AppState) (play : Bool) : AppState :=
  { s with isPaused := !play }

/-- Embeds `handleRetranslate` (`App.vue` lines 251-258): warns when the trimmed
last-seen text is empty, else calls `translate` with `force = true`. -/
def handleRetranslate (s : AppState) (env : Env) : AppState × List Ev :=
  let content := jsTrim s.originalText
  if content = "" then (s, [Ev.msgWarning "noContentForRetranslate"])
  else translate s env content true

/-- One history entry, mirroring `TranslationHistoryEntry`. -/
structure HistoryEntry where
  original : String
  translation : String
  deriving Repr, DecidableEq

/-- Modelled from the spec: the backend command `record_translation_history`
(the Rust backend is not among the sources; only its frontend caller in
`src/history.ts` is). Per §3 and §4.4, the History Log appends the entry
and truncates from the head to the 1000-entry cap (drop-oldest, FIFO). -/
def historyAppend (log : List HistoryEntry) (e : HistoryEntry) : List HistoryEntry :=
  let l := log ++ [e]
  l.drop (l.length - 1000)

/-- A whole sequence of appends applied to an initial log. -/
def historyRun (log : List HistoryEntry) (es : List HistoryEntry) : List HistoryEntry :=
  es.foldl historyAppend log

/-- The truthy cached value the `if (cached)` test of `translate` accepts,
`none` when the invocation proceeds to the request path: the cache is only
consulted under `isTauri && !force`, a rejected invoke falls through, and
`null` or `""` is falsy. -/
def cacheHit (s : AppState) (env : Env) (force : Bool) : Option String :=
  if s.isTauri && !force then
    match env.cacheResult with
    | Except.ok (some v) => if v = "" then none else some v
    | Except.ok none => none
    | Except.error _ => none
  else none

/-- The history-record events of a trace. -/
def historyEvents (tr : List Ev) : List Ev :=
  tr.filter fun e =>
    match e with
    | Ev.historyRecord _ _ => true
    | _ => false

/-- Concrete settings with a configured credential, for witnesses. -/
def cSettings : Settings :=
  { apiKey := "k", baseUrl := "", model := "m", prompt := "p" }

/-- A concrete idle Tauri app state, for witnesses. -/
def cState : AppState :=
  { isPaused := false, isTauri := true, settings := cSettings, controller := none,
    streaming := false, translatedText := "", originalText := "hi", nextId := 0 }

/-- A concrete environment: cache miss, stream delivers "a" then ends. -/
def envMiss : Env :=
  { cacheResult := Except.ok none, deltas := [some "a", none, some ""],
    outcome := StreamOutcome.ok, storeOk := true, historyOk := true }

/-- A concrete environment: cache miss, stream ends normally with no
truthy delta at all (accumulated output empty). -/
def envEmpty : Env :=
  { cacheResult := Except.ok none, deltas := [],
    outcome := StreamOutcome.ok, storeOk := true, historyOk := true }

/-- A concrete environment: cache hit whose stored value is the single
space, a whitespace-only translation. -/
def envHitWs : Env :=
  { cacheResult := Except.ok (some " "), deltas := [],
    outcome := StreamOutcome.ok, storeOk := true, historyOk := true }

/-- A concrete environment: cache hit with value "bonjour". -/
def envHit : Env :=
  { cacheResult := Except.ok (some "bonjour"), deltas := [],
    outcome := StreamOutcome.ok, storeOk := true, historyOk := true }

/-- A concrete environment: cache miss, stream aborted after one chunk. -/
def envAbort : Env :=
  { cacheResult := Except.ok none, deltas := [some "par"],
    outcome := StreamOutcome.abortError, storeOk := true, historyOk := true }

/-- A concrete environment: cache miss, stream ends normally with output
"a", but the cache store invoke fails. -/
def envStoreFail : Env :=
  { cacheResult := Except.ok none, deltas := [some "a"],
    outcome := StreamOutcome.ok, storeOk := false, historyOk := true }

/-! ## Basic lemmas about the embedded JS `trim` -/

theorem not_of_dropWhile_eq_cons {p : Char → Bool} {l cs : List Char} {c : Char}
    (h : l.dropWhile p = c :: cs) : p c = false := by
  induction l with
  | nil => simp at h
  | cons a as ih =>
    rw [List.dropWhile_cons] at h
    split at h
    · exact ih h
    · rename_i hpa
      cases h
      simpa using hpa

theorem dropWhile_trimChars (p : Char → Bool) (l : List Char) :
    ((l.dropWhile p).rdropWhile p).dropWhile p = (l.dropWhile p).rdropWhile p := by
  cases hC : (l.dropWhile p).rdropWhile p with
  | nil => simp
  | cons c cs =>
    have hpre := List.rdropWhile_prefix p (l.dropWhile p)
    rw [hC] at hpre
    obtain ⟨t, ht⟩ := hpre
    have hA : l.dropWhile p = c :: (cs ++ t) := by
      rw [← ht]; simp
    have hc := not_of_dropWhile_eq_cons hA
    rw [List.dropWhile_cons]
    simp [hc]

theorem trimChars_idem (l : List Char) : trimChars (trimChars l) = trimChars l := by
  unfold trimChars
  rw [dropWhile_trimChars]
  exact List.rdropWhile_idempotent _ _

theorem jsTrim_idem (s : String) : jsTrim (jsTrim s) = jsTrim s := by
  show (⟨trimChars (trimChars s.data)⟩ : String) = ⟨trimChars s.data⟩
  rw [trimChars_idem]

theorem jsTrim_empty : jsTrim "" = "" := by decide

theorem ne_empty_of_jsTrim_ne_empty {t : String} (h : ¬ jsTrim t = "") : ¬ t = "" := by
  intro he
  exact h (by rw [he]; exact jsTrim_empty)

/-! ## Classification of the events each piece of code can emit -/

theorem recordTranslationHistory_events {it ok : Bool} {o t : String} {e : Ev}
    (h : e ∈ recordTranslationHistory it ok o t) :
    e = Ev.historyRecord o t ∨ e = Ev.logError "record_translation_history" := by
  unfold recordTranslationHistory at h
  cases it <;> cases ok <;> simp_all

theorem persistTranslationHistory_events {it ok : Bool} {o t : String} {e : Ev}
    (h : e ∈ persistTranslationHistory it ok o t) :
    (e = Ev.historyRecord o t ∧ ¬ jsTrim t = "") ∨
      e = Ev.logError "record_translation_history" := by
  unfold persistTranslationHistory at h
  by_cases hw : jsTrim t = ""
  · rw [if_pos hw] at h
    simp at h
  · rw [if_neg hw] at h
    rcases recordTranslationHistory_events h with h1 | h1
    · exact Or.inl ⟨h1, hw⟩
    · exact Or.inr h1

theorem afterStream_events {s : AppState} {env : Env} {content : String} {sp : Bool}
    {e : Ev} (h : e ∈ afterStream s env content sp) :
    e = Ev.cacheStore content s.translatedText ∨
    e = Ev.logError "store_translation" ∨
    (e = Ev.historyRecord content s.translatedText ∧ ¬ jsTrim s.translatedText = "") ∨
    e = Ev.logError "record_translation_history" := by
  unfold afterStream at h
  rw [List.mem_append] at h
  rcases h with h | h
  · split at h
    · rw [List.mem_cons] at h
      rcases h with h | h
      · exact Or.inl h
      · split at h
        · simp at h
        · simp at h
          exact Or.inr (Or.inl h)
    · simp at h
  · split at h
    · simp at h
    · rcases persistTranslationHistory_events h with ⟨h1, h2⟩ | h1
      · exact Or.inr (Or.inr (Or.inl ⟨h1, h2⟩))
      · exact Or.inr (Or.inr (Or.inr h1))

/-! ## Reduction of `translateRequest` along each stream outcome -/

theorem translateRequest_noKey (s : AppState) (env : Env) (content : String)
    (hk : s.settings.apiKey = "") :
    translateRequest s env content = (s, [Ev.msgError "missingApiKey"]) := by
  unfold translateRequest
  rw [if_pos hk]

theorem translateRequest_ok (s : AppState) (env : Env) (content : String)
    (hk : ¬ s.settings.apiKey = "") (hok : env.outcome = StreamOutcome.ok) :
    translateRequest s env content =
      ({ s with nextId := s.nextId + 1, controller := none, streaming := false,
                translatedText := accumulate env.deltas },
        Ev.netRequest s.nextId s.settings.model s.settings.prompt content ::
          afterStream
            { s with nextId := s.nextId + 1, controller := none, streaming := false,
                     translatedText := accumulate env.deltas }
            env content true) := by
  unfold translateRequest
  rw [if_neg hk, hok]

theorem translateRequest_aborted (s : AppState) (env : Env) (content : String)
    (hk : ¬ s.settings.apiKey = "") (hab : env.outcome = StreamOutcome.abortError) :
    translateRequest s env content =
      ({ s with nextId := s.nextId + 1, controller := none, streaming := false,
                translatedText := accumulate env.deltas },
        [Ev.netRequest s.nextId s.settings.model s.settings.prompt content]) := by
  unfold translateRequest
  rw [if_neg hk, hab]

theorem translateRequest_failed (s : AppState) (env : Env) (content msg : String)
    (hk : ¬ s.settings.apiKey = "") (herr : env.outcome = StreamOutcome.otherError msg) :
    translateRequest s env content =
      ({ s with nextId := s.nextId + 1, controller := none, streaming := false,
                translatedText := accumulate env.deltas },
        Ev.netRequest s.nextId s.settings.model s.settings.prompt content ::
          Ev.msgError msg ::
            afterStream
              { s with nextId := s.nextId + 1, controller := none, streaming := false,
                       translatedText := accumulate env.deltas }
              env content false) := by
  unfold translateRequest
  rw [if_neg hk, herr]

theorem translateRequest_events {s : AppState} {env : Env} {content : String} {e : Ev}
    (h : e ∈ (translateRequest s env content).2) :
    e = Ev.msgError "missingApiKey" ∨
    e = Ev.netRequest s.nextId s.settings.model s.settings.prompt content ∨
    (∃ msg, e = Ev.msgError msg) ∨
    e = Ev.cacheStore content (accumulate env.deltas) ∨
    e = Ev.logError "store_translation" ∨
    (e = Ev.historyRecord content (accumulate env.deltas) ∧
      ¬ jsTrim (accumulate env.deltas) = "") ∨
    e = Ev.logError "record_translation_history" := by
  by_cases hk : s.settings.apiKey = ""
  · rw [translateRequest_noKey s env content hk] at h
    simp at h
    exact Or.inl h
  · cases hoc : env.outcome with
    | ok =>
      rw [translateRequest_ok s env content hk hoc] at h
      rw [List.mem_cons] at h
      rcases h with h | h
      · exact Or.inr (Or.inl h)
      · rcases afterStream_events h with h1 | h1 | ⟨h1, h2⟩ | h1
        · exact Or.inr (Or.inr (Or.inr (Or.inl h1)))
        · exact Or.inr (Or.inr (Or.inr (Or.inr (Or.inl h1))))
        · exact Or.inr (Or.inr (Or.inr (Or.inr (Or.inr (Or.inl ⟨h1, h2⟩)))))
        · exact Or.inr (Or.inr (Or.inr (Or.inr (Or.inr (Or.inr h1)))))
    | abortError =>
      rw [translateRequest_aborted s env content hk hoc] at h
      simp at h
      exact Or.inr (Or.inl h)
    | otherError msg =>
      rw [translateRequest_failed s env content msg hk hoc] at h
      rw [List.mem_cons] at h
      rcases h with h | h
      · exact Or.inr (Or.inl h)
      · rw [List.mem_cons] at h
        rcases h with h | h
        · exact Or.inr (Or.inr (Or.inl ⟨msg, h⟩))
        · rcases afterStream_events h with h1 | h1 | ⟨h1, h2⟩ | h1
          · exact Or.inr (Or.inr (Or.inr (Or.inl h1)))
          · exact Or.inr (Or.inr (Or.inr (Or.inr (Or.inl h1))))
          · exact Or.inr (Or.inr (Or.inr (Or.inr (Or.inr (Or.inl ⟨h1, h2⟩)))))
          · exact Or.inr (Or.inr (Or.inr (Or.inr (Or.inr (Or.inr h1)))))

/-! ## Reduction of `translate` along its control paths -/

theorem translate_paused (s : AppState) (env : Env) (text : String) (force : Bool)
    (hp : s.isPaused = true) :
    translate s env text force = (s, []) := by
  unfold translate
  rw [if_pos hp]

theorem translate_blank (s : AppState) (env : Env) (text : String) (force : Bool)
    (hp : s.isPaused = false) (ht : jsTrim text = "") :
    translate s env text force = (s, [Ev.msgWarning "noContent"]) := by
  simp only [translate, hp, Bool.false_eq_true, if_false, ht]
  simp

theorem cacheHit_some {s : AppState} {env : Env} {force : Bool} {cached : String}
    (h : cacheHit s env force = some cached) :
    (s.isTauri && !force) = true ∧ env.cacheResult = Except.ok (some cached) ∧
      ¬ cached = "" := by
  unfold cacheHit at h
  split at h
  · split at h
    · rename_i v heq
      split at h
      · simp at h
      · rename_i hv
        simp at h
        subst h
        exact ⟨by assumption, heq, hv⟩
    · simp at h
    · simp at h
  · simp at h

theorem cacheHit_none_cases {s : AppState} {env : Env} {force : Bool}
    (h : cacheHit s env force = none) :
    ¬ (s.isTauri && !force) = true ∨
    env.cacheResult = Except.ok none ∨
    env.cacheResult = Except.ok (some "") ∨
    ∃ er, env.cacheResult = Except.error er := by
  unfold cacheHit at h
  split at h
  · split at h
    · rename_i v heq
      split at h
      · rename_i hv
        subst hv
        exact Or.inr (Or.inr (Or.inl heq))
      · simp at h
    · rename_i heq
      exact Or.inr (Or.inl heq)
    · rename_i er heq
      exact Or.inr (Or.inr (Or.inr ⟨er, heq⟩))
  · rename_i htf
    exact Or.inl htf

theorem abortEvs_mem {c : Option Nat} {e : Ev} (he : e ∈ abortEvs c) :
    ∃ j, c = some j ∧ e = Ev.abortSession j := by
  cases c with
  | none => simp [abortEvs] at he
  | some j =>
    simp [abortEvs] at he
    exact ⟨j, rfl, he⟩

theorem translate_hit (s : AppState) (env : Env) (text cached : String)
    (hp : s.isPaused = false) (ht : ¬ jsTrim text = "")
    (hhit : cacheHit s env false = some cached) :
    translate s env text false =
      ({ s with controller := none, streaming := false, translatedText := cached },
        abortEvs s.controller ++
          Ev.cacheLookup (jsTrim text) ::
            persistTranslationHistory s.isTauri env.historyOk (jsTrim text) cached) := by
  obtain ⟨htf, hcr, hval⟩ := cacheHit_some hhit
  simp only [translate, hp, Bool.false_eq_true, if_false, ht, ite_false, htf,
    if_true, hcr, hval]

theorem cacheHit_true_ok_some {s : AppState} {env : Env} {force : Bool} {val : String}
    (htf : (s.isTauri && !force) = true)
    (hcr : env.cacheResult = Except.ok (some val)) (hval : ¬ val = "") :
    cacheHit s env force = some val := by
  unfold cacheHit
  rw [if_pos htf, hcr]
  simp [hval]

theorem translate_miss (s : AppState) (env : Env) (text : String) (force : Bool)
    (hp : s.isPaused = false) (ht : ¬ jsTrim text = "")
    (hmiss : cacheHit s env force = none) :
    ∃ pre : List Ev,
      translate s env text force =
        ((translateRequest { s with controller := none, streaming := false } env
            (jsTrim text)).1,
          (abortEvs s.controller ++ pre) ++
            (translateRequest { s with controller := none, streaming := false } env
              (jsTrim text)).2) ∧
      ∀ e ∈ pre, e = Ev.cacheLookup (jsTrim text) ∨
        e = Ev.logError "get_cached_translation" := by
  by_cases htf : (s.isTauri && !force) = true
  · cases hcr : env.cacheResult with
    | error er =>
      refine ⟨[Ev.cacheLookup (jsTrim text), Ev.logError "get_cached_translation"],
        ?_, ?_⟩
      · simp only [translate, hp, Bool.false_eq_true, if_false, ht, ite_false, htf,
          if_true, hcr]
        simp
      · intro e he
        simp at he
        rcases he with he | he
        · exact Or.inl he
        · exact Or.inr he
    | ok v =>
      cases v with
      | none =>
        refine ⟨[Ev.cacheLookup (jsTrim text)], ?_, ?_⟩
        · simp only [translate, hp, Bool.false_eq_true, if_false, ht, ite_false, htf,
            if_true, hcr]
          simp
        · intro e he
          simp at he
          exact Or.inl he
      | some val =>
        by_cases hval : val = ""
        · subst hval
          refine ⟨[Ev.cacheLookup (jsTrim text)], ?_, ?_⟩
          · simp only [translate, hp, Bool.false_eq_true, if_false, ht, ite_false, htf,
              if_true, hcr]
            simp
          · intro e he
            simp at he
            exact Or.inl he
        · rw [cacheHit_true_ok_some htf hcr hval] at hmiss
          simp at hmiss
  · rw [Bool.not_eq_true] at htf
    refine ⟨[], ?_, ?_⟩
    · simp only [translate, hp, Bool.false_eq_true, if_false, ht, ite_false, htf]
      simp
    · intro e he
      simp at he

theorem translateRequest_final (s : AppState) (env : Env) (content : String)
    (hcn : s.controller = none) (hstr : s.streaming = false) :
    (translateRequest s env content).1.controller = none ∧
    (translateRequest s env content).1.streaming = false := by
  by_cases hk : s.settings.apiKey = ""
  · rw [translateRequest_noKey s env content hk]
    exact ⟨hcn, hstr⟩
  · cases hoc : env.outcome with
    | ok => rw [translateRequest_ok s env content hk hoc]; exact ⟨rfl, rfl⟩
    | abortError => rw [translateRequest_aborted s env content hk hoc]; exact ⟨rfl, rfl⟩
    | otherError msg =>
      rw [translateRequest_failed s env content msg hk hoc]; exact ⟨rfl, rfl⟩

theorem afterStream_cacheStore_mem (s : AppState) (env : Env) (content : String)
    (hne : ¬ s.translatedText = "") (htauri : s.isTauri = true) :
    Ev.cacheStore content s.translatedText ∈ afterStream s env content true := by
  have hcond : (true && !(s.translatedText = "") && s.isTauri) = true := by
    simp [hne, htauri]
  unfold afterStream
  rw [List.mem_append]
  left
  rw [if_pos hcond]
  exact List.mem_cons_self _ _

theorem afterStream_storeFail_mem (s : AppState) (env : Env) (content : String)
    (hne : ¬ s.translatedText = "") (htauri : s.isTauri = true)
    (hsf : env.storeOk = false) :
    Ev.logError "store_translation" ∈ afterStream s env content true := by
  have hcond : (true && !(s.translatedText = "") && s.isTauri) = true := by
    simp [hne, htauri]
  unfold afterStream
  rw [List.mem_append]
  left
  rw [if_pos hcond, hsf]
  simp

theorem afterStream_history_mem (s : AppState) (env : Env) (content : String) (sp : Bool)
    (hw : ¬ jsTrim s.translatedText = "") (htauri : s.isTauri = true) :
    Ev.historyRecord content s.translatedText ∈ afterStream s env content sp := by
  have hne : ¬ s.translatedText = "" := ne_empty_of_jsTrim_ne_empty hw
  unfold afterStream
  rw [List.mem_append]
  right
  rw [if_neg hne]
  unfold persistTranslationHistory
  rw [if_neg hw]
  unfold recordTranslationHistory
  rw [htauri]
  cases env.historyOk <;> simp

theorem persistTranslationHistory_mem (it ok : Bool) (o t : String)
    (hw : ¬ jsTrim t = "") (hit : it = true) :
    Ev.historyRecord o t ∈ persistTranslationHistory it ok o t := by
  unfold persistTranslationHistory
  rw [if_neg hw]
  unfold recordTranslationHistory
  rw [hit]
  cases ok <;> simp

theorem translate_events {s : AppState} {env : Env} {text : String} {force : Bool}
    {e : Ev} (h : e ∈ (translate s env text force).2) :
    e = Ev.msgWarning "noContent" ∨
    (∃ j, s.controller = some j ∧ e = Ev.abortSession j) ∨
    e = Ev.cacheLookup (jsTrim text) ∨
    e = Ev.logError "get_cached_translation" ∨
    e = Ev.msgError "missingApiKey" ∨
    e = Ev.netRequest s.nextId s.settings.model s.settings.prompt (jsTrim text) ∨
    (∃ msg, e = Ev.msgError msg) ∨
    e = Ev.cacheStore (jsTrim text) (accumulate env.deltas) ∨
    e = Ev.logError "store_translation" ∨
    (∃ tr, e = Ev.historyRecord (jsTrim text) tr ∧ ¬ jsTrim tr = "") ∨
    e = Ev.logError "record_translation_history" := by
  by_cases hp : s.isPaused = true
  · rw [translate_paused s env text force hp] at h
    simp at h
  · rw [Bool.not_eq_true] at hp
    by_cases ht : jsTrim text = ""
    · rw [translate_blank s env text force hp ht] at h
      simp at h
      exact Or.inl h
    · cases hhit : cacheHit s env force with
      | some cached =>
        have hff : force = false := by
          have h1 := (cacheHit_some hhit).1
          cases force with
          | false => rfl
          | true => simp at h1
        subst hff
        rw [translate_hit s env text cached hp ht hhit] at h
        rw [List.mem_append] at h
        rcases h with h | h
        · exact Or.inr (Or.inl (abortEvs_mem h))
        · rw [List.mem_cons] at h
          rcases h with h | h
          · exact Or.inr (Or.inr (Or.inl h))
          · rcases persistTranslationHistory_events h with ⟨h1, h2⟩ | h1
            · exact Or.inr (Or.inr (Or.inr (Or.inr (Or.inr (Or.inr (Or.inr (Or.inr
                (Or.inr (Or.inl ⟨cached, h1, h2⟩)))))))))
            · exact Or.inr (Or.inr (Or.inr (Or.inr (Or.inr (Or.inr (Or.inr (Or.inr
                (Or.inr (Or.inr h1)))))))))
      | none =>
        obtain ⟨pre, heq, hpre⟩ := translate_miss s env text force hp ht hhit
        rw [heq] at h
        simp only [List.append_assoc, List.mem_append] at h
        rcases h with h | h | h
        · exact Or.inr (Or.inl (abortEvs_mem h))
        · rcases hpre e h with h1 | h1
          · exact Or.inr (Or.inr (Or.inl h1))
          · exact Or.inr (Or.inr (Or.inr (Or.inl h1)))
        · rcases translateRequest_events h with h1 | h1 | h1 | h1 | h1 | ⟨h1, h2⟩ | h1
          · exact Or.inr (Or.inr (Or.inr (Or.inr (Or.inl h1))))
          · exact Or.inr (Or.inr (Or.inr (Or.inr (Or.inr (Or.inl h1)))))
          · exact Or.inr (Or.inr (Or.inr (Or.inr (Or.inr (Or.inr (Or.inl h1))))))
          · exact Or.inr (Or.inr (Or.inr (Or.inr (Or.inr (Or.inr (Or.inr (Or.inl h1)))))))
          · exact Or.inr (Or.inr (Or.inr (Or.inr (Or.inr (Or.inr (Or.inr (Or.inr
              (Or.inl h1))))))))
          · exact Or.inr (Or.inr (Or.inr (Or.inr (Or.inr (Or.inr (Or.inr (Or.inr
              (Or.inr (Or.inl ⟨accumulate env.deltas, h1, h2⟩)))))))))
          · exact Or.inr (Or.inr (Or.inr (Or.inr (Or.inr (Or.inr (Or.inr (Or.inr
              (Or.inr (Or.inr h1)))))))))

/-! ## The History Log cap (modelled from the spec, backend absent) -/

theorem historyAppend_eq (log : List HistoryEntry) (e : HistoryEntry) :
    historyAppend log e = (log ++ [e]).drop ((log.length + 1) - 1000) := by
  unfold historyAppend
  simp

theorem historyAppend_length_le (log : List HistoryEntry) (e : HistoryEntry) :
    (historyAppend log e).length ≤ 1000 := by
  rw [historyAppend_eq, List.length_drop]
  simp
  omega

set_option maxRecDepth 4000 in
theorem historyRun_drop (es : List HistoryEntry) :
    ∀ log : List HistoryEntry, log.length ≤ 1000 →
      historyRun log es = (log ++ es).drop ((log ++ es).length - 1000) := by
  induction es with
  | nil =>
    intro log h
    have h0 : historyRun log [] = log := by
      simp [historyRun]
    rw [h0, List.append_nil, Nat.sub_eq_zero_of_le h, List.drop_zero]
  | cons e es ih =>
    intro log h
    have h2 := ih (historyAppend log e) (historyAppend_length_le log e)
    have h3 : historyRun log (e :: es) = historyRun (historyAppend log e) es := by
      simp [historyRun]
    rw [h3, h2, historyAppend_eq]
    have hle : (log.length + 1) - 1000 ≤ (log ++ [e]).length := by
      simp
      omega
    rw [← List.drop_append_of_le_length hle, List.drop_drop]
    have hl : (log ++ [e]) ++ es = log ++ e :: es := by simp
    rw [hl]
    have hidx : log.length + 1 - 1000 +
        ((List.drop (log.length + 1 - 1000) (log ++ e :: es)).length - 1000) =
        (log ++ e :: es).length - 1000 := by
      rw [List.length_drop, List.length_append, List.length_cons]
      omega
    rw [hidx]

/-! ## Further helpers shared by the claim theorems -/

theorem cacheHit_force_false {s : AppState} {env : Env} {force : Bool} {cached : String}
    (h : cacheHit s env force = some cached) : force = false := by
  have h1 := (cacheHit_some h).1
  cases force with
  | false => rfl
  | true => simp at h1

theorem cacheHit_isTauri {s : AppState} {env : Env} {force : Bool} {cached : String}
    (h : cacheHit s env force = some cached) : s.isTauri = true := by
  have h1 := (cacheHit_some h).1
  cases hti : s.isTauri with
  | true => rfl
  | false => rw [hti] at h1; simp at h1

theorem cacheHit_force_true (s : AppState) (env : Env) :
    cacheHit s env true = none := by
  unfold cacheHit
  simp

theorem translateRequest_netRequest_mem (s : AppState) (env : Env) (content : String)
    (hk : ¬ s.settings.apiKey = "") :
    Ev.netRequest s.nextId s.settings.model s.settings.prompt content ∈
      (translateRequest s env content).2 := by
  cases hoc : env.outcome with
  | ok =>
    rw [translateRequest_ok s env content hk hoc]
    exact List.mem_cons_self _ _
  | abortError =>
    rw [translateRequest_aborted s env content hk hoc]
    exact List.mem_cons_self _ _
  | otherError msg =>
    rw [translateRequest_failed s env content msg hk hoc]
    exact List.mem_cons_self _ _

theorem translate_force (s : AppState) (env : Env) (text : String)
    (hp : s.isPaused = false) (ht : ¬ jsTrim text = "") :
    translate s env text true =
      ((translateRequest { s with controller := none, streaming := false } env
          (jsTrim text)).1,
        abortEvs s.controller ++
          (translateRequest { s with controller := none, streaming := false } env
            (jsTrim text)).2) := by
  simp only [translate, hp, Bool.false_eq_true, if_false, ht, ite_false]
  simp

/-! ## The claims -/

/-- Claim C1: an invocation of `translate` on non-paused, non-blank input
first aborts the live controller (the abort is the head of the trace, so
it precedes any network request), any network request it makes is tagged
with the freshly allocated controller id `s.nextId`, and the invocation
ends with the controller handle cleared. -/
theorem translate_aborts_prior_session (s : AppState) (env : Env) (text : String)
    (force : Bool) (id : Nat)
    (hp : s.isPaused = false) (ht : ¬ jsTrim text = "") (hc : s.controller = some id) :
    ∃ rest, (translate s env text force).2 = Ev.abortSession id :: rest ∧
      (∀ i m p c, Ev.netRequest i m p c ∈ rest → i = s.nextId) ∧
      (translate s env text force).1.controller = none := by
  cases hhit : cacheHit s env force with
  | some cached =>
    have hff := cacheHit_force_false hhit
    subst hff
    rw [translate_hit s env text cached hp ht hhit]
    refine ⟨Ev.cacheLookup (jsTrim text) ::
      persistTranslationHistory s.isTauri env.historyOk (jsTrim text) cached, ?_, ?_, rfl⟩
    · rw [hc]
      rfl
    · intro i m p c hmem
      rw [List.mem_cons] at hmem
      rcases hmem with hmem | hmem
      · simp at hmem
      · rcases persistTranslationHistory_events hmem with ⟨h1, h2⟩ | h1 <;> simp at h1
  | none =>
    obtain ⟨pre, heq, hpre⟩ := translate_miss s env text force hp ht hhit
    rw [heq]
    refine ⟨pre ++ (translateRequest { s with controller := none, streaming := false } env
      (jsTrim text)).2, ?_, ?_, ?_⟩
    · rw [hc]
      simp [abortEvs]
    · intro i m p c hmem
      rw [List.mem_append] at hmem
      rcases hmem with hmem | hmem
      · rcases hpre _ hmem with h1 | h1 <;> simp at h1
      · rcases translateRequest_events hmem with h1 | h1 | ⟨m2, h1⟩ | h1 | h1 | ⟨h1, h2⟩ | h1
        · simp at h1
        · rw [Ev.netRequest.injEq] at h1
          exact h1.1
        · simp at h1
        · simp at h1
        · simp at h1
        · simp at h1
        · simp at h1
    · exact (translateRequest_final _ env (jsTrim text) rfl rfl).1

/-- Claim C1 witness: starting from a state whose live controller is 5 and
whose next fresh id is 6, `translate` first aborts controller 5, any
request it makes uses id 6, and the handle ends cleared. -/
theorem translate_aborts_prior_session_witness :
    ∃ rest,
      (translate { cState with controller := some 5, nextId := 6 } envAbort "hi" false).2 =
        Ev.abortSession 5 :: rest ∧
      (∀ i m p c, Ev.netRequest i m p c ∈ rest → i = 6) ∧
      (translate { cState with controller := some 5, nextId := 6 }
        envAbort "hi" false).1.controller = none :=
  translate_aborts_prior_session { cState with controller := some 5, nextId := 6 }
    envAbort "hi" false 5 rfl (by decide) rfl

/-- Claim C2 counterexample: a stream that ends normally with empty
accumulated output produces neither a cache store nor a history record —
the claim's "including one whose accumulated output is empty" fails. -/
theorem completed_empty_stream_not_persisted :
    envEmpty.outcome = StreamOutcome.ok ∧
    (translate cState envEmpty "hi" false).2 =
      [Ev.cacheLookup "hi", Ev.netRequest 0 "m" "p" "hi"] ∧
    Ev.cacheStore "hi" "" ∉ (translate cState envEmpty "hi" false).2 ∧
    Ev.historyRecord "hi" "" ∉ (translate cState envEmpty "hi" false).2 := by
  refine ⟨rfl, ?_, ?_, ?_⟩ <;> decide

/-- Claim C2 (amended): when a streaming translation ends normally, the
accumulated text is displayed; it is written to the cache only when
non-empty, and recorded to history only when its trimmed content is
non-empty. -/
theorem translate_completed_persists (s : AppState) (env : Env) (text : String)
    (force : Bool)
    (hp : s.isPaused = false) (ht : ¬ jsTrim text = "")
    (hmiss : cacheHit s env force = none) (hkey : ¬ s.settings.apiKey = "")
    (htauri : s.isTauri = true) (hok : env.outcome = StreamOutcome.ok) :
    (translate s env text force).1.translatedText = accumulate env.deltas ∧
    (¬ accumulate env.deltas = "" →
      Ev.cacheStore (jsTrim text) (accumulate env.deltas) ∈
        (translate s env text force).2) ∧
    (¬ jsTrim (accumulate env.deltas) = "" →
      Ev.historyRecord (jsTrim text) (accumulate env.deltas) ∈
        (translate s env text force).2) := by
  obtain ⟨pre, heq, hpre⟩ := translate_miss s env text force hp ht hmiss
  rw [heq, translateRequest_ok { s with controller := none, streaming := false } env (jsTrim text) hkey hok]
  refine ⟨rfl, ?_, ?_⟩
  · intro hacc
    exact List.mem_append_right _ (List.mem_cons_of_mem _
      (afterStream_cacheStore_mem _ env (jsTrim text) hacc htauri))
  · intro hw
    exact List.mem_append_right _ (List.mem_cons_of_mem _
      (afterStream_history_mem _ env (jsTrim text) true hw htauri))

/-- Claim C2 witness: a normally completed stream with output "a" is
recorded to history (and, per the other conjuncts, displayed and cached). -/
theorem translate_completed_persists_witness :
    Ev.historyRecord (jsTrim "hi") (accumulate envMiss.deltas) ∈
      (translate cState envMiss "hi" false).2 :=
  (translate_completed_persists cState envMiss "hi" false rfl (by decide) (by decide)
    (by decide) rfl rfl).2.2 (by decide)

/-- Claim C3 counterexample: the cache holds the whitespace-only
translation " " for "hi"; `translate` displays it and makes no network
call, but the trace is exactly the lookup — no history record occurs,
refuting "records one new history entry with that same translation". -/
theorem cache_hit_whitespace_no_history :
    envHitWs.cacheResult = Except.ok (some " ") ∧
    (translate cState envHitWs "hi" false).1.translatedText = " " ∧
    (translate cState envHitWs "hi" false).2 = [Ev.cacheLookup "hi"] := by
  refine ⟨rfl, ?_, ?_⟩ <;> decide

/-- Claim C3 (amended): on a truthy cache hit (no `force`), the stored
translation is displayed and no network request is made; a history entry
with that translation is recorded exactly when its trimmed content is
non-empty (a whitespace-only stored value is displayed but not recorded). -/
theorem translate_cache_hit_displays (s : AppState) (env : Env) (text cached : String)
    (hp : s.isPaused = false) (ht : ¬ jsTrim text = "")
    (hhit : cacheHit s env false = some cached) :
    (translate s env text false).1.translatedText = cached ∧
    (∀ i m p c, Ev.netRequest i m p c ∉ (translate s env text false).2) ∧
    (¬ jsTrim cached = "" →
      Ev.historyRecord (jsTrim text) cached ∈ (translate s env text false).2) ∧
    (jsTrim cached = "" →
      ∀ o tr, Ev.historyRecord o tr ∉ (translate s env text false).2) := by
  have htauri := cacheHit_isTauri hhit
  rw [translate_hit s env text cached hp ht hhit]
  refine ⟨rfl, ?_, ?_, ?_⟩
  · intro i m p c hmem
    rw [List.mem_append] at hmem
    rcases hmem with hmem | hmem
    · obtain ⟨j, _, h1⟩ := abortEvs_mem hmem
      simp at h1
    · rw [List.mem_cons] at hmem
      rcases hmem with hmem | hmem
      · simp at hmem
      · rcases persistTranslationHistory_events hmem with ⟨h1, h2⟩ | h1 <;> simp at h1
  · intro hw
    exact List.mem_append_right _ (List.mem_cons_of_mem _
      (persistTranslationHistory_mem s.isTauri env.historyOk (jsTrim text) cached hw htauri))
  · intro hw o tr hmem
    rw [List.mem_append] at hmem
    rcases hmem with hmem | hmem
    · obtain ⟨j, _, h1⟩ := abortEvs_mem hmem
      simp at h1
    · rw [List.mem_cons] at hmem
      rcases hmem with hmem | hmem
      · simp at hmem
      · rcases persistTranslationHistory_events hmem with ⟨h1, h2⟩ | h1
        · exact h2 hw
        · simp at h1

/-- Claim C3 witness: a cache hit with stored translation "bonjour"
records a history entry carrying exactly that translation. -/
theorem translate_cache_hit_displays_witness :
    Ev.historyRecord (jsTrim "hi") "bonjour" ∈ (translate cState envHit "hi" false).2 :=
  (translate_cache_hit_displays cState envHit "hi" "bonjour" rfl (by decide)
    (by decide)).2.2.1 (by decide)

/-- Claim C4: an aborted in-flight session (the stream raised
`AbortError`, which is what `AbortController.abort()` produces whether
triggered by `stopStream` or by a superseding `translate` call) performs
no cache store and no history record; the invocation ends not streaming
with the controller cleared, so the partial output is never persisted. -/
theorem translate_aborted_discards (s : AppState) (env : Env) (text : String)
    (force : Bool)
    (hp : s.isPaused = false) (ht : ¬ jsTrim text = "")
    (hmiss : cacheHit s env force = none)
    (habort : env.outcome = StreamOutcome.abortError) :
    (∀ k v, Ev.cacheStore k v ∉ (translate s env text force).2) ∧
    (∀ o tr, Ev.historyRecord o tr ∉ (translate s env text force).2) ∧
    (translate s env text force).1.streaming = false ∧
    (translate s env text force).1.controller = none := by
  obtain ⟨pre, heq, hpre⟩ := translate_miss s env text force hp ht hmiss
  rw [heq]
  have hfin := translateRequest_final
    { s with controller := none, streaming := false } env (jsTrim text) rfl rfl
  by_cases hk : s.settings.apiKey = ""
  · rw [translateRequest_noKey { s with controller := none, streaming := false } env (jsTrim text) hk] at hfin ⊢
    refine ⟨?_, ?_, hfin.2, hfin.1⟩
    · intro k v hmem
      rw [List.mem_append] at hmem
      rcases hmem with hmem | hmem
      · rw [List.mem_append] at hmem
        rcases hmem with hmem | hmem
        · obtain ⟨j, _, h1⟩ := abortEvs_mem hmem
          simp at h1
        · rcases hpre _ hmem with h1 | h1 <;> simp at h1
      · simp at hmem
    · intro o tr hmem
      rw [List.mem_append] at hmem
      rcases hmem with hmem | hmem
      · rw [List.mem_append] at hmem
        rcases hmem with hmem | hmem
        · obtain ⟨j, _, h1⟩ := abortEvs_mem hmem
          simp at h1
        · rcases hpre _ hmem with h1 | h1 <;> simp at h1
      · simp at hmem
  · rw [translateRequest_aborted { s with controller := none, streaming := false } env (jsTrim text) hk habort] at hfin ⊢
    refine ⟨?_, ?_, hfin.2, hfin.1⟩
    · intro k v hmem
      rw [List.mem_append] at hmem
      rcases hmem with hmem | hmem
      · rw [List.mem_append] at hmem
        rcases hmem with hmem | hmem
        · obtain ⟨j, _, h1⟩ := abortEvs_mem hmem
          simp at h1
        · rcases hpre _ hmem with h1 | h1 <;> simp at h1
      · simp at hmem
    · intro o tr hmem
      rw [List.mem_append] at hmem
      rcases hmem with hmem | hmem
      · rw [List.mem_append] at hmem
        rcases hmem with hmem | hmem
        · obtain ⟨j, _, h1⟩ := abortEvs_mem hmem
          simp at h1
        · rcases hpre _ hmem with h1 | h1 <;> simp at h1
      · simp at hmem

/-- Claim C4 witness: an aborted stream that had already accumulated
"par" records nothing to history. -/
theorem translate_aborted_discards_witness :
    Ev.historyRecord "hi" "par" ∉ (translate cState envAbort "hi" false).2 :=
  (translate_aborted_discards cState envAbort "hi" false rfl (by decide) (by decide)
    rfl).2.1 "hi" "par"

/-- Claim C5 (modelled from the spec, Rust backend absent from the
sources): any sequence of appends starting from the empty History Log
leaves at most 1000 entries, and the log is exactly the last 1000 entries
in arrival order — the oldest are the ones dropped. -/
theorem history_cap_fifo (es : List HistoryEntry) :
    (historyRun [] es).length ≤ 1000 ∧
    historyRun [] es = es.drop (es.length - 1000) := by
  have h := historyRun_drop es [] (by simp)
  rw [List.nil_append] at h
  refine ⟨?_, h⟩
  rw [h, List.length_drop]
  omega

/-- Claim C6: on a cache miss with no configured API key, `translate`
reports the missing-key error, issues no network request, leaves the
displayed translation unchanged and is not streaming. -/
theorem translate_missing_key_no_request (s : AppState) (env : Env) (text : String)
    (force : Bool)
    (hp : s.isPaused = false) (ht : ¬ jsTrim text = "")
    (hmiss : cacheHit s env force = none) (hkey : s.settings.apiKey = "") :
    Ev.msgError "missingApiKey" ∈ (translate s env text force).2 ∧
    (∀ i m p c, Ev.netRequest i m p c ∉ (translate s env text force).2) ∧
    (translate s env text force).1.translatedText = s.translatedText ∧
    (translate s env text force).1.streaming = false := by
  obtain ⟨pre, heq, hpre⟩ := translate_miss s env text force hp ht hmiss
  rw [heq, translateRequest_noKey { s with controller := none, streaming := false } env (jsTrim text) hkey]
  refine ⟨?_, ?_, rfl, rfl⟩
  · exact List.mem_append_right _ (List.mem_cons_self _ _)
  · intro i m p c hmem
    rw [List.mem_append] at hmem
    rcases hmem with hmem | hmem
    · rw [List.mem_append] at hmem
      rcases hmem with hmem | hmem
      · obtain ⟨j, _, h1⟩ := abortEvs_mem hmem
        simp at h1
      · rcases hpre _ hmem with h1 | h1 <;> simp at h1
    · simp at hmem

/-- Claim C6 witness: with an empty API key and a cache miss, the
missing-key error is shown. -/
theorem translate_missing_key_no_request_witness :
    Ev.msgError "missingApiKey" ∈
      (translate { cState with settings := { cSettings with apiKey := "" } }
        envEmpty "hi" false).2 :=
  (translate_missing_key_no_request
    { cState with settings := { cSettings with apiKey := "" } } envEmpty "hi" false
    rfl (by decide) (by decide) rfl).1

/-- Claim C7: when the stream completes normally with non-empty output
but the cache store fails, the failure is logged, the store was attempted,
the accumulated text is still the displayed result, and the history record
still occurs (for non-blank output) — storage success is never a condition
for the user-visible outcome. -/
theorem translate_store_failure_harmless (s : AppState) (env : Env) (text : String)
    (force : Bool)
    (hp : s.isPaused = false) (ht : ¬ jsTrim text = "")
    (hmiss : cacheHit s env force = none) (hkey : ¬ s.settings.apiKey = "")
    (htauri : s.isTauri = true) (hok : env.outcome = StreamOutcome.ok)
    (hacc : ¬ accumulate env.deltas = "") (hsf : env.storeOk = false) :
    (translate s env text force).1.translatedText = accumulate env.deltas ∧
    Ev.cacheStore (jsTrim text) (accumulate env.deltas) ∈ (translate s env text force).2 ∧
    Ev.logError "store_translation" ∈ (translate s env text force).2 ∧
    (¬ jsTrim (accumulate env.deltas) = "" →
      Ev.historyRecord (jsTrim text) (accumulate env.deltas) ∈
        (translate s env text force).2) := by
  obtain ⟨pre, heq, hpre⟩ := translate_miss s env text force hp ht hmiss
  rw [heq, translateRequest_ok { s with controller := none, streaming := false } env (jsTrim text) hkey hok]
  refine ⟨rfl, ?_, ?_, ?_⟩
  · exact List.mem_append_right _ (List.mem_cons_of_mem _
      (afterStream_cacheStore_mem _ env (jsTrim text) hacc htauri))
  · exact List.mem_append_right _ (List.mem_cons_of_mem _
      (afterStream_storeFail_mem _ env (jsTrim text) hacc htauri hsf))
  · intro hw
    exact List.mem_append_right _ (List.mem_cons_of_mem _
      (afterStream_history_mem _ env (jsTrim text) true hw htauri))

/-- Claim C7 witness: with a failing cache store after a stream producing
"a", the failure is logged (and, per the other conjuncts, the text stays
displayed and history is still recorded). -/
theorem translate_store_failure_harmless_witness :
    Ev.logError "store_translation" ∈ (translate cState envStoreFail "hi" false).2 :=
  (translate_store_failure_harmless cState envStoreFail "hi" false rfl (by decide)
    (by decide) (by decide) rfl rfl (by decide) rfl).2.2.1

/-- Claim C8: `handleRetranslate` on a non-empty last-seen text calls
`translate` with `force = true`, whose trace contains no cache lookup at
all and does contain a fresh network request for the trimmed text. -/
theorem translate_force_bypasses_cache (s : AppState) (env : Env)
    (hp : s.isPaused = false) (ht : ¬ jsTrim s.originalText = "")
    (hkey : ¬ s.settings.apiKey = "") :
    handleRetranslate s env = translate s env (jsTrim s.originalText) true ∧
    (∀ k, Ev.cacheLookup k ∉ (handleRetranslate s env).2) ∧
    Ev.netRequest s.nextId s.settings.model s.settings.prompt (jsTrim s.originalText) ∈
      (handleRetranslate s env).2 := by
  have ht2 : ¬ jsTrim (jsTrim s.originalText) = "" := by
    rw [jsTrim_idem]
    exact ht
  have h0 : handleRetranslate s env = translate s env (jsTrim s.originalText) true := by
    unfold handleRetranslate
    rw [if_neg ht]
  have h1 := translate_force s env (jsTrim s.originalText) hp ht2
  rw [jsTrim_idem] at h1
  refine ⟨h0, ?_, ?_⟩
  · intro k hmem
    rw [h0, h1] at hmem
    rw [List.mem_append] at hmem
    rcases hmem with hmem | hmem
    · obtain ⟨j, _, he⟩ := abortEvs_mem hmem
      simp at he
    · rcases translateRequest_events hmem with h2 | h2 | ⟨m2, h2⟩ | h2 | h2 | ⟨h2, h3⟩ | h2 <;>
        simp at h2
  · rw [h0, h1]
    exact List.mem_append_right _
      (translateRequest_netRequest_mem _ env (jsTrim s.originalText) hkey)

/-- Claim C8 witness: retranslating the last-seen text "hi" issues the
network request and (per the other conjunct) performs no cache lookup. -/
theorem translate_force_bypasses_cache_witness :
    Ev.netRequest 0 "m" "p" (jsTrim "hi") ∈ (handleRetranslate cState envHit).2 :=
  (translate_force_bypasses_cache cState envHit rfl (by decide) (by decide)).2.2

/-- Claim C9: while paused, `translate` returns immediately with the state
unchanged and an empty effect trace — no lookup, no request, no write, no
change to the displayed text. -/
theorem translate_paused_noop (s : AppState) (env : Env) (text : String) (force : Bool)
    (hp : s.isPaused = true) :
    translate s env text force = (s, []) := by
  unfold translate
  rw [if_pos hp]

/-- Claim C9 witness: a paused state is returned untouched with no
effects. -/
theorem translate_paused_noop_witness :
    translate { cState with isPaused := true } envMiss "hi" false =
      ({ cState with isPaused := true }, []) :=
  translate_paused_noop { cState with isPaused := true } envMiss "hi" false rfl

/-- Claim C10: every history record the frontend emits — through any
`translate` path, or directly through `persistTranslationHistory` —
carries a translation whose trimmed content is non-empty. -/
theorem no_blank_history_recorded :
    (∀ (s : AppState) (env : Env) (text : String) (force : Bool) (o tr : String),
      Ev.historyRecord o tr ∈ (translate s env text force).2 → ¬ jsTrim tr = "") ∧
    (∀ (it ok : Bool) (o tr o2 tr2 : String),
      Ev.historyRecord o2 tr2 ∈ persistTranslationHistory it ok o tr →
        ¬ jsTrim tr2 = "") := by
  constructor
  · intro s env text force o tr h
    rcases translate_events h with
      h1 | ⟨j, _, h1⟩ | h1 | h1 | h1 | h1 | ⟨m2, h1⟩ | h1 | h1 | ⟨t2, h1, h2⟩ | h1
    · simp at h1
    · simp at h1
    · simp at h1
    · simp at h1
    · simp at h1
    · simp at h1
    · simp at h1
    · simp at h1
    · simp at h1
    · cases h1
      exact h2
    · simp at h1
  · intro it ok o tr o2 tr2 h
    rcases persistTranslationHistory_events h with ⟨h1, h2⟩ | h1
    · cases h1
      exact h2
    · simp at h1

/-- Claim C10 witness: the history record emitted for the cache hit
"bonjour" indeed has non-blank trimmed content. -/
theorem no_blank_history_recorded_witness : ¬ jsTrim "bonjour" = "" :=
  no_blank_history_recorded.1 cState envHit "hi" false "hi" "bonjour" (by decide)

end Anna